import Mathlib

/-!
Verification of the Axie gene-decoding and breeding utilities of the
n8n-nodes-ronin repository.  The definitions below are a shallow embedding of
`src/nodes/Ronin/utils/geneUtils.ts`, `src/nodes/Ronin/utils/axieUtils.ts`
and the constant tables of `src/nodes/Ronin/constants/axieData.ts`.
Hex/binary strings are modelled as `List Char`, JavaScript numbers appearing
in costs and multipliers as `ℚ`, and object fields as structure fields.
-/

namespace Ronin

/-- Value of a hexadecimal digit, `none` for a non-hex character
(JS `parseInt(char, 16)` yields `NaN` there). -/
def hexVal (c : Char) : Option Nat :=
  if '0' ≤ c ∧ c ≤ '9' then some (c.toNat - '0'.toNat)
  else if 'a' ≤ c ∧ c ≤ 'f' then some (c.toNat - 'a'.toNat + 10)
  else if 'A' ≤ c ∧ c ≤ 'F' then some (c.toNat - 'A'.toNat + 10)
  else none

/-- The 4-character binary expansion of a nibble value `n < 16`; this is
JS `n.toString(2).padStart(4, '0')` for such `n`. -/
def natBits4 (n : Nat) : List Char :=
  [if n.testBit 3 then '1' else '0',
   if n.testBit 2 then '1' else '0',
   if n.testBit 1 then '1' else '0',
   if n.testBit 0 then '1' else '0']

/-- One hex character of the gene string expanded to 4 characters.  For a
non-hex character JS computes `NaN.toString(2).padStart(4, '0')`, the literal
text `0NaN`. -/
def hexChunk (c : Char) : List Char :=
  match hexVal c with
  | some n => natBits4 n
  | none => ['0', 'N', 'a', 'N']

/-- `hexToBinary` of geneUtils.ts on the character list of the input:
strip an optional `0x` prefix, expand every character to 4 binary
characters, and left-pad the result with `'0'` to length 256. -/
def hexToBinaryL (l : List Char) : List Char :=
  let clean := if l.take 2 = ['0', 'x'] then l.drop 2 else l
  let binary := (clean.map hexChunk).flatten
  if binary.length < 256 then List.replicate (256 - binary.length) '0' ++ binary
  else binary

/-- `hexToBinary` on strings. -/
def hexToBinary (hexGene : String) : List Char :=
  hexToBinaryL hexGene.toList

/-- JS `s.slice(a, b)` for `a ≤ b` on a character list. -/
def sliceStr (l : List Char) (a b : Nat) : List Char :=
  (l.drop a).take (b - a)

/-- Numeric value of a list of binary digit characters, MSB first. -/
def binToNat (l : List Char) : Nat :=
  l.foldl (fun acc c => 2 * acc + (if c = '1' then 1 else 0)) 0

/-- JS `parseInt(s, 2).toString()`: parse the longest prefix of binary
digits; when there is none the value is `NaN`, printed as the text `NaN`. -/
def parseBin (l : List Char) : String :=
  let digits := l.takeWhile (fun c => c = '0' || c = '1')
  if digits.isEmpty then "NaN" else toString (binToNat digits)

/-- Association-list lookup used to model JS object-literal indexing. -/
def lookupS {α : Type} : List (String × α) → String → Option α
  | [], _ => none
  | (k, v) :: rest, key => if key = k then some v else lookupS rest key

/-- The nine Axie classes (`AXIE_CLASSES` of axieData.ts). -/
inductive AxieClass where
  | beast | bug | bird | plant | aquatic | reptile | mech | dawn | dusk
deriving DecidableEq, Repr

/-- The runtime string representation of an `AxieClass` value. -/
def className : AxieClass → String
  | .beast => "beast"
  | .bug => "bug"
  | .bird => "bird"
  | .plant => "plant"
  | .aquatic => "aquatic"
  | .reptile => "reptile"
  | .mech => "mech"
  | .dawn => "dawn"
  | .dusk => "dusk"

/-- The `AXIE_CLASSES.includes` membership test together with the cast to
`AxieClass`: `some` exactly on the nine class names. -/
def classFromName : String → Option AxieClass
  | "beast" => some .beast
  | "bug" => some .bug
  | "bird" => some .bird
  | "plant" => some .plant
  | "aquatic" => some .aquatic
  | "reptile" => some .reptile
  | "mech" => some .mech
  | "dawn" => some .dawn
  | "dusk" => some .dusk
  | _ => none

/-- `CLASS_HEX` of axieData.ts: the 9-entry 4-bit code table. -/
def CLASS_HEX : List (String × String) :=
  [("0000", "beast"), ("0001", "bug"), ("0010", "bird"), ("0011", "plant"),
   ("0100", "aquatic"), ("0101", "reptile"), ("1000", "mech"),
   ("1001", "dawn"), ("1010", "dusk")]

/-- One allele record `{id, name, class}` of a `PartGene`. -/
structure AlleleInfo where
  id : String
  name : String
  «class» : String
deriving DecidableEq, Repr

/-- `PartGene` of geneUtils.ts: dominant and two recessive alleles. -/
structure PartGene where
  d : AlleleInfo
  r1 : AlleleInfo
  r2 : AlleleInfo
deriving DecidableEq, Repr

/-- A `{d, r1, r2}` triple of decimal strings (pattern and color fields). -/
structure TriString where
  d : String
  r1 : String
  r2 : String
deriving DecidableEq, Repr

/-- `DecodedGenes` of geneUtils.ts. -/
structure DecodedGenes where
  «class» : AxieClass
  region : String
  tag : String
  bodySkin : String
  pattern : TriString
  color : TriString
  eyes : PartGene
  ears : PartGene
  mouth : PartGene
  horn : PartGene
  back : PartGene
  tail : PartGene
deriving DecidableEq, Repr

/-- `getClassFromGene` of geneUtils.ts: the first 4 binary characters looked
up in `CLASS_HEX`, falling back to `beast` when the code is unmapped or the
mapped name is not a member of `AXIE_CLASSES`. -/
def getClassFromGene (binaryGene : List Char) : AxieClass :=
  match lookupS CLASS_HEX (String.mk (sliceStr binaryGene 0 4)) with
  | none => .beast
  | some name =>
    match classFromName name with
    | some c => c
    | none => .beast

/-- The inner `decodePart` closure of `decodePartGene`: a 12-character
allele window.  The first 4 characters are the class code (default
`unknown`), the next 6 the part id rendered in decimal. -/
def decodePart (bits : List Char) : AlleleInfo :=
  let classBits := sliceStr bits 0 4
  let partIdBits := sliceStr bits 4 10
  let partClass := (lookupS CLASS_HEX (String.mk classBits)).getD "unknown"
  let partId := parseBin partIdBits
  { id := partId, name := "part-" ++ partId, «class» := partClass }

/-- `decodePartGene` of geneUtils.ts: a 36-character part window split into
three 12-character alleles. -/
def decodePartGene (partBinary : List Char) : PartGene :=
  { d := decodePart (sliceStr partBinary 0 12)
  , r1 := decodePart (sliceStr partBinary 12 24)
  , r2 := decodePart (sliceStr partBinary 24 36) }

/-- `decodeGenes` of geneUtils.ts on the binary expansion: fixed-offset
slices for the scalar fields, then six 36-bit part windows starting at
offset 64. -/
def decodeGenesL (binary : List Char) : DecodedGenes :=
  { «class» := getClassFromGene binary
  , region := parseBin (sliceStr binary 4 9)
  , tag := parseBin (sliceStr binary 9 13)
  , bodySkin := parseBin (sliceStr binary 13 17)
  , pattern :=
      { d := parseBin (sliceStr binary 17 23)
      , r1 := parseBin (sliceStr binary 23 29)
      , r2 := parseBin (sliceStr binary 29 35) }
  , color :=
      { d := parseBin (sliceStr binary 35 41)
      , r1 := parseBin (sliceStr binary 41 47)
      , r2 := parseBin (sliceStr binary 47 53) }
  , eyes := decodePartGene (sliceStr binary 64 100)
  , mouth := decodePartGene (sliceStr binary 100 136)
  , ears := decodePartGene (sliceStr binary 136 172)
  , horn := decodePartGene (sliceStr binary 172 208)
  , back := decodePartGene (sliceStr binary 208 244)
  , tail := decodePartGene (sliceStr binary 244 280) }

/-- `decodeGenes` of geneUtils.ts. -/
def decodeGenes (geneHex : String) : DecodedGenes :=
  decodeGenesL (hexToBinary geneHex)

/-- A character admitted by the regular expression class `[0-9a-fA-F]`. -/
def isHexChar (c : Char) : Bool :=
  ('0' ≤ c && c ≤ '9') || ('a' ≤ c && c ≤ 'f') || ('A' ≤ c && c ≤ 'F')

/-- `isValidGene` of geneUtils.ts on the character list of the input:
strip an optional `0x` prefix, require length 64 and the regular expression
test `[0-9a-fA-F]+` on the remainder.  The subsequent `decodeGenes` call of
the source cannot fail (it is a total computation), so the surrounding
`try`/`catch` contributes nothing. -/
def isValidGeneL (l : List Char) : Bool :=
  let cleanHex := if l.take 2 = ['0', 'x'] then l.drop 2 else l
  if cleanHex.length ≠ 64 then false
  else if ¬ (cleanHex ≠ [] ∧ cleanHex.all isHexChar) then false
  else true

/-- `isValidGene` of geneUtils.ts. -/
def isValidGene (geneHex : String) : Bool :=
  isValidGeneL geneHex.toList

/-- The specification pattern: this definition follows the spec text
`^(0x)?[0-9a-fA-F]{64}$` rather than the source, for comparison with
`isValidGene`.  Either the whole input is 64 hex characters, or it is `0x`
followed by 64 hex characters. -/
def matchesGenePatternL (l : List Char) : Bool :=
  (l.length = 64 && l.all isHexChar) ||
  (l.take 2 = ['0', 'x'] && l.length = 66 && (l.drop 2).all isHexChar)

/-- The specification pattern on strings. -/
def matchesGenePattern (s : String) : Bool :=
  matchesGenePatternL s.toList

/-- `AxieStats` of geneUtils.ts: the four battle stats. -/
structure AxieStats where
  hp : Nat
  speed : Nat
  skill : Nat
  morale : Nat
deriving DecidableEq, Repr

/-- Componentwise addition of stat records, as performed field by field in
the loop of `calculateStats`. -/
def addStats (a b : AxieStats) : AxieStats :=
  { hp := a.hp + b.hp, speed := a.speed + b.speed
  , skill := a.skill + b.skill, morale := a.morale + b.morale }

/-- `BASE_STATS` of axieData.ts. -/
def BASE_STATS : List (String × AxieStats) :=
  [("beast", ⟨31, 35, 31, 43⟩), ("bug", ⟨35, 31, 35, 39⟩),
   ("bird", ⟨27, 43, 35, 35⟩), ("plant", ⟨43, 31, 31, 35⟩),
   ("aquatic", ⟨39, 39, 35, 27⟩), ("reptile", ⟨39, 35, 31, 35⟩),
   ("mech", ⟨31, 39, 43, 27⟩), ("dawn", ⟨35, 35, 39, 31⟩),
   ("dusk", ⟨43, 27, 35, 35⟩)]

/-- `PART_STAT_BONUS` of axieData.ts. -/
def PART_STAT_BONUS : List (String × AxieStats) :=
  [("beast", ⟨0, 1, 0, 3⟩), ("bug", ⟨1, 0, 0, 3⟩),
   ("bird", ⟨0, 3, 0, 1⟩), ("plant", ⟨3, 0, 0, 1⟩),
   ("aquatic", ⟨1, 3, 0, 0⟩), ("reptile", ⟨3, 1, 0, 0⟩),
   ("mech", ⟨1, 0, 3, 0⟩), ("dawn", ⟨0, 0, 3, 1⟩),
   ("dusk", ⟨3, 0, 1, 0⟩)]

/-- `BODY_PARTS` member type of axieData.ts. -/
inductive BodyPart where
  | eyes | ears | back | mouth | horn | tail
deriving DecidableEq, Repr

/-- JS indexing `genes[part]` of a decoded structure by a body-part name. -/
def getPart (genes : DecodedGenes) : BodyPart → PartGene
  | .eyes => genes.eyes
  | .ears => genes.ears
  | .back => genes.back
  | .mouth => genes.mouth
  | .horn => genes.horn
  | .tail => genes.tail

/-- The iteration order `['eyes', 'ears', 'mouth', 'horn', 'back', 'tail']`
used by both `calculateStats` and `calculatePurity`. -/
def statParts : List BodyPart :=
  [.eyes, .ears, .mouth, .horn, .back, .tail]

/-- The `|| { hp: 0, ... }` fallback of `calculateStats`: bonus table lookup
by a part-class string, zero for an unmapped class. -/
def partBonus (partClass : String) : AxieStats :=
  (lookupS PART_STAT_BONUS partClass).getD ⟨0, 0, 0, 0⟩

/-- `calculateStats` of geneUtils.ts: base stats for the class (with the
`BASE_STATS.beast` fallback of the source) plus, accumulated over the six
parts, the bonus table entry of the dominant allele's class. -/
def calculateStats (genes : DecodedGenes) : AxieStats :=
  let baseStats := (lookupS BASE_STATS (className genes.«class»)).getD ⟨31, 35, 31, 43⟩
  statParts.foldl (fun stats part => addStats stats (partBonus (getPart genes part).d.«class»)) baseStats

/-- `calculatePurity` of geneUtils.ts: the count of parts whose dominant
allele class string equals the Axie's class, divided by 6, times 100. -/
def calculatePurity (genes : DecodedGenes) : ℚ :=
  let matchingParts := (statParts.filter (fun part => (getPart genes part).d.«class» = className genes.«class»)).length
  ((matchingParts : ℚ) / 6) * 100

/-- `Axie` of axieUtils.ts (the optional display-only fields omitted). -/
structure Axie where
  id : String
  «class» : AxieClass
  genes : String
  bornAt : Nat
  matronId : String
  sireId : String
  breedCount : Nat
  owner : String
  stage : Nat
deriving DecidableEq, Repr

/-- `BreedingInfo` of axieUtils.ts (the optional USD/cooldown fields,
never set by `canBreed`, omitted). -/
structure BreedingInfo where
  canBreed : Bool
  axsCost : ℚ
  slpCost : ℚ
  reason : Option String
deriving DecidableEq, Repr

/-- `BREEDING_COSTS.SLP_BY_BREED_COUNT` of axieData.ts. -/
def SLP_BY_BREED_COUNT : List ℚ :=
  [900, 1350, 2250, 3600, 5850, 9450, 15300]

/-- `BREEDING_COSTS.AXS_PER_BREED` of axieData.ts. -/
def AXS_PER_BREED : ℚ := 1 / 2

/-- `BREEDING_COSTS.MAX_BREED_COUNT` of axieData.ts. -/
def MAX_BREED_COUNT : Nat := 7

/-- The `SLP_BY_BREED_COUNT[breedCount] || 0` lookup of axieUtils.ts. -/
def slpLookup (breedCount : Nat) : ℚ :=
  (SLP_BY_BREED_COUNT.get? breedCount).getD 0

/-- `canBreed` of axieUtils.ts. -/
def canBreed (axie : Axie) : BreedingInfo :=
  if axie.breedCount ≥ MAX_BREED_COUNT then
    { canBreed := false, axsCost := 0, slpCost := 0
    , reason := some "Maximum breed count reached (7)" }
  else if axie.stage < 4 then
    { canBreed := false, axsCost := 0, slpCost := 0
    , reason := some "Axie must be an adult to breed" }
  else
    { canBreed := true, axsCost := AXS_PER_BREED
    , slpCost := slpLookup axie.breedCount, reason := none }

/-- Result record `{axsCost, slpCost}` of `calculateBreedingCost`. -/
structure BreedingCost where
  axsCost : ℚ
  slpCost : ℚ
deriving DecidableEq, Repr

/-- `calculateBreedingCost` of axieUtils.ts. -/
def calculateBreedingCost (axie1 axie2 : Axie) : BreedingCost :=
  { axsCost := AXS_PER_BREED
  , slpCost := slpLookup axie1.breedCount + slpLookup axie2.breedCount }

/-- Result record of `canBreedTogether`. -/
structure BreedTogetherResult where
  canBreed : Bool
  reason : Option String
deriving DecidableEq, Repr

/-- `canBreedTogether` of axieUtils.ts: a chain of early returns checking
self-breeding, direct parenthood in both directions, siblings, and finally
each parent's individual eligibility via `canBreed`. -/
def canBreedTogether (axie1 axie2 : Axie) : BreedTogetherResult :=
  if axie1.id = axie2.id then
    { canBreed := false, reason := some "Cannot breed Axie with itself" }
  else if axie1.id = axie2.matronId ∨ axie1.id = axie2.sireId then
    { canBreed := false, reason := some "Cannot breed with parent" }
  else if axie2.id = axie1.matronId ∨ axie2.id = axie1.sireId then
    { canBreed := false, reason := some "Cannot breed with parent" }
  else if axie1.matronId = axie2.matronId ∧ axie1.sireId = axie2.sireId ∧
          axie1.matronId ≠ "0" ∧ axie1.sireId ≠ "0" then
    { canBreed := false, reason := some "Cannot breed siblings" }
  else
    let breed1 := canBreed axie1
    if breed1.canBreed = false then
      { canBreed := false
      , reason := some ("Axie " ++ axie1.id ++ ": " ++ breed1.reason.getD "undefined") }
    else
      let breed2 := canBreed axie2
      if breed2.canBreed = false then
        { canBreed := false
        , reason := some ("Axie " ++ axie2.id ++ ": " ++ breed2.reason.getD "undefined") }
      else
        { canBreed := true, reason := none }

/-- `CLASS_ADVANTAGES` of axieData.ts: the classes each class is strong
against. -/
def CLASS_ADVANTAGES : AxieClass → List AxieClass
  | .beast => [.plant, .reptile, .dusk]
  | .bug => [.beast, .mech, .dawn]
  | .bird => [.bug, .aquatic, .dawn]
  | .plant => [.bird, .aquatic, .dawn]
  | .aquatic => [.beast, .bug, .mech]
  | .reptile => [.bird, .plant, .aquatic]
  | .mech => [.beast, .bug, .bird]
  | .dawn => [.plant, .reptile, .aquatic]
  | .dusk => [.bug, .bird, .beast]

/-- `getClassAdvantage` of axieUtils.ts: `1.15` when the defender is in the
attacker's advantage list, else `0.85` when the attacker is in the
defender's list, else `1.0`. -/
def getClassAdvantage (attackerClass defenderClass : AxieClass) : ℚ :=
  if defenderClass ∈ CLASS_ADVANTAGES attackerClass then 23 / 20
  else if attackerClass ∈ CLASS_ADVANTAGES defenderClass then 17 / 20
  else 1

/-- The map key of `calculateBreedingProbability`: class and part id of
an allele joined by a dash. -/
def geneKey (gene : AlleleInfo) : String :=
  gene.«class» ++ "-" ++ gene.id

/-- The six weighted allele entries of `calculateBreedingProbability`, in
iteration order: dominant `0.375`, recessive1 `0.09375`, recessive2
`0.03125`, for parent 1 then parent 2. -/
def alleleEntries (parent1Gene parent2Gene : PartGene) : List (String × ℚ) :=
  [(geneKey parent1Gene.d, 3 / 8), (geneKey parent1Gene.r1, 3 / 32),
   (geneKey parent1Gene.r2, 1 / 32), (geneKey parent2Gene.d, 3 / 8),
   (geneKey parent2Gene.r1, 3 / 32), (geneKey parent2Gene.r2, 1 / 32)]

/-- JS `Map.get(key) || 0` on the insertion-ordered association list. -/
def probGet (m : List (String × ℚ)) (key : String) : ℚ :=
  (lookupS m key).getD 0

/-- JS `Map.set(key, v)`: replace the value of an existing key in place,
otherwise append the new entry at the end. -/
def mapSet (m : List (String × ℚ)) (key : String) (v : ℚ) : List (String × ℚ) :=
  if (lookupS m key).isSome then
    m.map (fun p => if p.1 = key then (key, v) else p)
  else
    m ++ [(key, v)]

/-- One iteration of the accumulation loop of
`calculateBreedingProbability`. -/
def probStep (m : List (String × ℚ)) (entry : String × ℚ) : List (String × ℚ) :=
  mapSet m entry.1 (probGet m entry.1 + entry.2)

/-- `calculateBreedingProbability` of geneUtils.ts, the JS `Map` modelled
as an insertion-ordered association list. -/
def calculateBreedingProbability (parent1Gene parent2Gene : PartGene) : List (String × ℚ) :=
  (alleleEntries parent1Gene parent2Gene).foldl probStep []

/-- The base-stat table written out per class, for stating the
`calculateStats` correctness theorem against the table entry of the class. -/
def baseStatsTable : AxieClass → AxieStats
  | .beast => ⟨31, 35, 31, 43⟩
  | .bug => ⟨35, 31, 35, 39⟩
  | .bird => ⟨27, 43, 35, 35⟩
  | .plant => ⟨43, 31, 31, 35⟩
  | .aquatic => ⟨39, 39, 35, 27⟩
  | .reptile => ⟨39, 35, 31, 35⟩
  | .mech => ⟨31, 39, 43, 27⟩
  | .dawn => ⟨35, 35, 39, 31⟩
  | .dusk => ⟨43, 27, 35, 35⟩

/-- The strings a decoded allele class can take: the nine class names of
`CLASS_HEX` or the `unknown` fallback. -/
def alleleClassStrings : List String :=
  ["beast", "bug", "bird", "plant", "aquatic", "reptile", "mech", "dawn",
   "dusk", "unknown"]

/-- Sum of the values of a probability map. -/
def valsSum (m : List (String × ℚ)) : ℚ :=
  (m.map Prod.snd).sum

/-! ## Theorems -/

/-- The three return values of `getClassAdvantage` are pairwise distinct
rationals. -/
lemma adv_values_distinct :
    (23 / 20 : ℚ) ≠ 17 / 20 ∧ (23 / 20 : ℚ) ≠ 1 ∧ (17 / 20 : ℚ) ≠ 1 := by
  norm_num

/-- `getClassAdvantage` returns `1.15` exactly when the defender is in the
attacker's advantage list. -/
lemma adv_115_iff (a d : AxieClass) :
    getClassAdvantage a d = 23 / 20 ↔ d ∈ CLASS_ADVANTAGES a := by
  unfold getClassAdvantage
  by_cases h1 : d ∈ CLASS_ADVANTAGES a
  · simp [h1]
  · by_cases h2 : a ∈ CLASS_ADVANTAGES d <;> simp [h1, h2] <;> norm_num

/-- `getClassAdvantage` returns `0.85` exactly when only the defender's
advantage list mentions the attacker. -/
lemma adv_085_iff (a d : AxieClass) :
    getClassAdvantage a d = 17 / 20 ↔ (d ∉ CLASS_ADVANTAGES a ∧ a ∈ CLASS_ADVANTAGES d) := by
  unfold getClassAdvantage
  by_cases h1 : d ∈ CLASS_ADVANTAGES a
  · simp [h1]
    norm_num
  · by_cases h2 : a ∈ CLASS_ADVANTAGES d
    · simp [h1, h2]
    · simp [h1, h2]
      norm_num

/-- `getClassAdvantage` returns `1.0` exactly when neither class lists the
other. -/
lemma adv_1_iff (a d : AxieClass) :
    getClassAdvantage a d = 1 ↔ (d ∉ CLASS_ADVANTAGES a ∧ a ∉ CLASS_ADVANTAGES d) := by
  unfold getClassAdvantage
  by_cases h1 : d ∈ CLASS_ADVANTAGES a
  · simp [h1]
    norm_num
  · by_cases h2 : a ∈ CLASS_ADVANTAGES d <;> simp [h1, h2]
    norm_num

/-- C2 counterexample: `beast` and `dusk` each list the other in their
advantage table, so both directions of `getClassAdvantage` return `1.15`;
the claimed implication that `1.15` one way forces `0.85` the other way is
false at this pair. -/
theorem C2_counterexample :
    getClassAdvantage .beast .dusk = 23 / 20 ∧
    getClassAdvantage .dusk .beast = 23 / 20 ∧
    (23 / 20 : ℚ) ≠ 17 / 20 := by
  refine ⟨?_, ?_, by norm_num⟩ <;> rw [adv_115_iff] <;> decide

/-- C2 (amended): `getClassAdvantage X X = 1.0` for every class, and
`getClassAdvantage X Y = 0.85` implies `getClassAdvantage Y X = 1.15`;
the converse direction fails exactly on the three mutually-advantaged
pairs `beast`/`dusk`, `bug`/`mech` and `plant`/`dawn`, where both
directions return `1.15`. -/
theorem C2_amended (X Y : AxieClass) :
    (getClassAdvantage X Y = 17 / 20 → getClassAdvantage Y X = 23 / 20) ∧
    getClassAdvantage X X = 1 ∧
    (getClassAdvantage X Y = 23 / 20 ∧ getClassAdvantage Y X = 23 / 20 ↔
      (X, Y) ∈ ([(.beast, .dusk), (.dusk, .beast), (.bug, .mech), (.mech, .bug),
                 (.plant, .dawn), (.dawn, .plant)] : List (AxieClass × AxieClass))) := by
  refine ⟨?_, ?_, ?_⟩
  · intro h
    rw [adv_085_iff] at h
    rw [adv_115_iff]
    exact h.2
  · rw [adv_1_iff]
    exact ⟨by cases X <;> decide, by cases X <;> decide⟩
  · rw [adv_115_iff, adv_115_iff]
    cases X <;> cases Y <;> decide

/-- Witness for C2 (amended): `reptile` beats `aquatic`, so the `0.85`
direction instantiated at `(aquatic, reptile)` yields `1.15` the other
way. -/
theorem C2_amended_witness :
    getClassAdvantage .reptile .aquatic = 23 / 20 :=
  (C2_amended .aquatic .reptile).1 ((adv_085_iff _ _).mpr ⟨by decide, by decide⟩)

/-- C5: `calculatePurity` equals the count of parts whose dominant-allele
class matches the Axie's class, divided by 6, times 100, and the result
always lies in the interval from 0 to 100. -/
theorem C5_purity (genes : DecodedGenes) :
    calculatePurity genes =
      ((statParts.filter
        (fun part => (getPart genes part).d.«class» = className genes.«class»)).length : ℚ) / 6 * 100 ∧
    0 ≤ calculatePurity genes ∧ calculatePurity genes ≤ 100 := by
  refine ⟨rfl, ?_, ?_⟩
  · unfold calculatePurity
    positivity
  · unfold calculatePurity
    have hlen : (statParts.filter
        (fun part => (getPart genes part).d.«class» = className genes.«class»)).length ≤ 6 := by
      have := List.length_filter_le
        (fun part => decide ((getPart genes part).d.«class» = className genes.«class»)) statParts
      simpa [statParts] using this
    have hq : ((statParts.filter
        (fun part => (getPart genes part).d.«class» = className genes.«class»)).length : ℚ) ≤ 6 := by
      exact_mod_cast hlen
    set m : ℚ := ((statParts.filter
        (fun part => (getPart genes part).d.«class» = className genes.«class»)).length : ℚ)
    linarith

/-- C7: the SLP cost table has 7 entries with 900 at index 0 and 15300 at
index 6; `calculateBreedingCost` charges the fixed AXS cost `0.5` once per
pairing and the sum of both parents' table entries (1800 SLP for two
fresh parents); an eligible Axie is charged its table entry; and any Axie
with breed count at least 7 is ineligible with the max-breed-count
reason. -/
theorem C7_breeding_costs :
    SLP_BY_BREED_COUNT.get? 0 = some 900 ∧
    SLP_BY_BREED_COUNT.get? 6 = some 15300 ∧
    SLP_BY_BREED_COUNT.length = 7 ∧
    (∀ axie1 axie2 : Axie, (calculateBreedingCost axie1 axie2).axsCost = 1 / 2) ∧
    (∀ axie1 axie2 : Axie, axie1.breedCount = 0 → axie2.breedCount = 0 →
      calculateBreedingCost axie1 axie2 = ⟨1 / 2, 1800⟩) ∧
    (∀ axie : Axie, 4 ≤ axie.stage → axie.breedCount < 7 →
      canBreed axie =
        ⟨true, 1 / 2, (SLP_BY_BREED_COUNT.get? axie.breedCount).getD 0, none⟩) ∧
    (∀ axie : Axie, 7 ≤ axie.breedCount →
      canBreed axie = ⟨false, 0, 0, some "Maximum breed count reached (7)"⟩) := by
  refine ⟨rfl, rfl, rfl, fun _ _ => rfl, ?_, ?_, ?_⟩
  · intro axie1 axie2 h1 h2
    unfold calculateBreedingCost
    rw [h1, h2]
    rw [BreedingCost.mk.injEq]
    refine ⟨rfl, ?_⟩
    norm_num [slpLookup, SLP_BY_BREED_COUNT]
  · intro axie hstage hcount
    unfold canBreed
    rw [if_neg (by simp only [MAX_BREED_COUNT]; omega : ¬ axie.breedCount ≥ MAX_BREED_COUNT),
        if_neg (by omega : ¬ axie.stage < 4)]
    rfl
  · intro axie hcount
    unfold canBreed
    rw [if_pos (by simp only [MAX_BREED_COUNT]; omega : axie.breedCount ≥ MAX_BREED_COUNT)]

/-- Witness for C7: two fresh adult parents cost 1800 SLP and 0.5 AXS in
total, and a concrete Axie at breed count 7 is refused with the
max-breed-count reason. -/
theorem C7_breeding_costs_witness :
    calculateBreedingCost ⟨"1", .beast, "", 0, "0", "0", 0, "o", 4⟩
        ⟨"2", .beast, "", 0, "0", "0", 0, "o", 4⟩ = ⟨1 / 2, 1800⟩ ∧
    canBreed ⟨"3", .beast, "", 0, "0", "0", 7, "o", 4⟩ =
      ⟨false, 0, 0, some "Maximum breed count reached (7)"⟩ :=
  ⟨C7_breeding_costs.2.2.2.2.1 _ _ rfl rfl,
   C7_breeding_costs.2.2.2.2.2.2 _ (by decide)⟩

/-- C6: `calculateStats` is the base-stat table entry of the Axie's class
plus, componentwise, the sum over the six parts of the bonus-table entry of
the dominant allele's class; the table lookup by class never misses (so
the `beast` fallback of the source is unreachable), and an unmapped
dominant-allele class such as `unknown` contributes a zero bonus. -/
theorem C6_stats (genes : DecodedGenes) :
    calculateStats genes =
      { hp := (baseStatsTable genes.«class»).hp +
          (statParts.map (fun part => (partBonus (getPart genes part).d.«class»).hp)).sum
      , speed := (baseStatsTable genes.«class»).speed +
          (statParts.map (fun part => (partBonus (getPart genes part).d.«class»).speed)).sum
      , skill := (baseStatsTable genes.«class»).skill +
          (statParts.map (fun part => (partBonus (getPart genes part).d.«class»).skill)).sum
      , morale := (baseStatsTable genes.«class»).morale +
          (statParts.map (fun part => (partBonus (getPart genes part).d.«class»).morale)).sum } ∧
    (∀ c : AxieClass, lookupS BASE_STATS (className c) = some (baseStatsTable c)) ∧
    partBonus "unknown" = ⟨0, 0, 0, 0⟩ := by
  refine ⟨?_, fun c => by cases c <;> rfl, rfl⟩
  have hbase : (lookupS BASE_STATS (className genes.«class»)).getD ⟨31, 35, 31, 43⟩ =
      baseStatsTable genes.«class» := by
    have h : ∀ c : AxieClass,
        (lookupS BASE_STATS (className c)).getD ⟨31, 35, 31, 43⟩ = baseStatsTable c :=
      fun c => by cases c <;> rfl
    exact h genes.«class»
  simp only [calculateStats, hbase, statParts, List.foldl_cons, List.foldl_nil,
    List.map_cons, List.map_nil, List.sum_cons, List.sum_nil, addStats]
  rw [AxieStats.mk.injEq]
  refine ⟨?_, ?_, ?_, ?_⟩ <;> omega

/-- The validity check of the source agrees with the spec pattern on every
character list. -/
lemma isValidL_eq_matchesL (l : List Char) : isValidGeneL l = matchesGenePatternL l := by
  unfold isValidGeneL matchesGenePatternL
  by_cases h : l.take 2 = ['0', 'x']
  · obtain ⟨r, rfl⟩ : ∃ r, l = '0' :: 'x' :: r := by
      refine ⟨l.drop 2, ?_⟩
      have h2 := (List.take_append_drop 2 l).symm
      rw [h] at h2
      simpa using h2
    have hx : isHexChar 'x' = false := rfl
    simp only [if_pos h, List.drop_succ_cons, List.drop_zero, List.length_cons,
      List.all_cons, hx, Bool.false_and, Bool.and_false]
    by_cases hr : r.length = 64
    · have hne : r ≠ [] := by
        intro hnil
        rw [hnil] at hr
        simp at hr
      have h66 : r.length + 1 + 1 = 66 := by omega
      by_cases hall : r.all isHexChar
      · simp [hr, hne, hall, h66]
      · simp [hr, hne, hall, h66]
    · have h66 : ¬ (r.length + 1 + 1 = 66) := by omega
      simp [hr, h66]
  · simp only [if_neg h]
    by_cases hr : l.length = 64
    · have hne : l ≠ [] := by
        intro hnil
        rw [hnil] at hr
        simp at hr
      by_cases hall : l.all isHexChar
      · simp [hr, hne, hall, h]
      · simp [hr, hne, hall, h]
    · simp [hr, h]

/-- C9: `isValidGene` is a total boolean check (the embedded computation
cannot fail) and returns `true` exactly on the strings matching the spec
pattern: 64 hexadecimal characters after stripping an optional `0x`
prefix. -/
theorem C9_isValidGene (s : String) : isValidGene s = matchesGenePattern s :=
  isValidL_eq_matchesL s.toList

/-- Lookup distributes over appending, preferring the left list. -/
lemma lookupS_append (m n : List (String × ℚ)) (key : String) :
    lookupS (m ++ n) key =
      match lookupS m key with
      | some v => some v
      | none => lookupS n key := by
  induction m with
  | nil => rfl
  | cons p t ih =>
    obtain ⟨a, b⟩ := p
    by_cases h : key = a <;> simp [lookupS, h, ih]

/-- A key is absent from the lookup exactly when it is not among the
stored keys. -/
lemma lookupS_eq_none (m : List (String × ℚ)) (key : String) :
    lookupS m key = none ↔ key ∉ m.map Prod.fst := by
  induction m with
  | nil => simp [lookupS]
  | cons p t ih =>
    obtain ⟨a, b⟩ := p
    by_cases h : key = a <;> simp [lookupS, h, ih]

/-- Lookup after replacing every entry of a key by a fresh value. -/
lemma lookupS_replace (m : List (String × ℚ)) (k key : String) (v : ℚ) :
    lookupS (m.map (fun p => if p.1 = k then (k, v) else p)) key =
      if key = k then (if (lookupS m k).isSome then some v else none)
      else lookupS m key := by
  induction m with
  | nil => simp [lookupS]
  | cons p t ih =>
    obtain ⟨a, b⟩ := p
    by_cases hak : a = k
    · subst hak
      have hfa : (if ((a, b) : String × ℚ).1 = a then ((a, v) : String × ℚ) else (a, b)) = (a, v) := by
        simp
      rw [List.map_cons, hfa]
      by_cases hk : key = a
      · simp [lookupS, hk]
      · simp [lookupS, hk, ih]
    · have hfa : (if ((a, b) : String × ℚ).1 = k then ((k, v) : String × ℚ) else (a, b)) = (a, b) := by
        simp [hak]
      rw [List.map_cons, hfa]
      by_cases hk : key = a
      · have hkk : key ≠ k := by
          rw [hk]
          exact hak
        simp [lookupS, hk, hkk, hak]
      · have hka : ¬ (k = a) := fun hh => hak hh.symm
        simp [lookupS, hk, hka, ih]

/-- Lookup after a JS `Map.set`: the set key now maps to the new value,
every other key is untouched. -/
lemma lookupS_mapSet (m : List (String × ℚ)) (k key : String) (v : ℚ) :
    lookupS (mapSet m k v) key = if key = k then some v else lookupS m key := by
  unfold mapSet
  by_cases hp : (lookupS m k).isSome
  · rw [if_pos hp, lookupS_replace]
    simp [hp]
  · rw [if_neg hp, lookupS_append]
    by_cases hk : key = k
    · subst hk
      have hnone : lookupS m key = none := by
        cases hcase : lookupS m key with
        | none => rfl
        | some w => rw [hcase] at hp; simp at hp
      rw [hnone]
      simp [lookupS]
    · cases hcase : lookupS m key <;> simp [lookupS, hk, hcase]

/-- One accumulation step adds its weight to exactly its own key. -/
lemma probGet_probStep (m : List (String × ℚ)) (e : String × ℚ) (key : String) :
    probGet (probStep m e) key = probGet m key + (if key = e.1 then e.2 else 0) := by
  unfold probStep probGet
  rw [lookupS_mapSet]
  by_cases hk : key = e.1
  · subst hk
    simp [probGet]
  · simp [hk]

/-- The accumulated value of each key after folding a list of weighted
entries is the initial value plus the total weight of the entries carrying
that key. -/
lemma probGet_foldl (entries : List (String × ℚ)) (m : List (String × ℚ)) (key : String) :
    probGet (entries.foldl probStep m) key =
      probGet m key + ((entries.filter (fun e => e.1 = key)).map Prod.snd).sum := by
  induction entries generalizing m with
  | nil => simp
  | cons e t ih =>
    rw [List.foldl_cons, ih, probGet_probStep]
    by_cases hk : e.1 = key
    · subst hk
      simp [List.filter_cons]
      ring
    · have hk' : ¬ (key = e.1) := fun hh => hk hh.symm
      simp [List.filter_cons, hk, hk']

/-- A JS `Map.set` adds at most one entry. -/
lemma length_mapSet_le (m : List (String × ℚ)) (k : String) (v : ℚ) :
    (mapSet m k v).length ≤ m.length + 1 := by
  unfold mapSet
  split_ifs <;> simp

/-- Folding the accumulation step grows the map by at most one entry per
input. -/
lemma length_foldl_probStep_le (entries : List (String × ℚ)) (m : List (String × ℚ)) :
    (entries.foldl probStep m).length ≤ m.length + entries.length := by
  induction entries generalizing m with
  | nil => simp
  | cons e t ih =>
    rw [List.foldl_cons]
    calc (t.foldl probStep (probStep m e)).length
        ≤ (probStep m e).length + t.length := ih _
      _ ≤ (m.length + 1) + t.length := by
          have := length_mapSet_le m e.1 (probGet m e.1 + e.2)
          unfold probStep
          omega
      _ = m.length + (e :: t).length := by simp; omega

/-- The key list after a JS `Map.set`: unchanged when the key was present,
extended by the key otherwise. -/
lemma keys_mapSet (m : List (String × ℚ)) (k : String) (v : ℚ) :
    (mapSet m k v).map Prod.fst =
      if (lookupS m k).isSome then m.map Prod.fst else m.map Prod.fst ++ [k] := by
  unfold mapSet
  split_ifs with h
  · rw [List.map_map]
    apply List.map_congr_left
    intro p _
    by_cases hp : p.1 = k <;> simp [hp]
  · simp

/-- The accumulation step preserves distinctness of keys. -/
lemma keysNodup_probStep (m : List (String × ℚ)) (e : String × ℚ)
    (h : (m.map Prod.fst).Nodup) : ((probStep m e).map Prod.fst).Nodup := by
  unfold probStep
  rw [keys_mapSet]
  split_ifs with hp
  · exact h
  · rw [List.nodup_append]
    refine ⟨h, List.nodup_singleton _, ?_⟩
    intro a ha hb
    rw [List.mem_singleton] at hb
    subst hb
    have : lookupS m e.1 = none := by
      cases hcase : lookupS m e.1 with
      | none => rfl
      | some w => rw [hcase] at hp; simp at hp
    exact (lookupS_eq_none m e.1).mp this ha

/-- Folding the accumulation step preserves distinctness of keys. -/
lemma keysNodup_foldl (entries : List (String × ℚ)) (m : List (String × ℚ))
    (h : (m.map Prod.fst).Nodup) :
    ((entries.foldl probStep m).map Prod.fst).Nodup := by
  induction entries generalizing m with
  | nil => exact h
  | cons e t ih =>
    rw [List.foldl_cons]
    exact ih _ (keysNodup_probStep m e h)

/-- The value sum of a map decomposes over its head entry. -/
lemma valsSum_cons (p : String × ℚ) (t : List (String × ℚ)) :
    valsSum (p :: t) = p.2 + valsSum t := by
  simp [valsSum]

/-- Replacing the unique entry of a present key changes the value sum by
the difference of the values. -/
lemma valsSum_replace (m : List (String × ℚ)) (k : String) (v w : ℚ)
    (h : (m.map Prod.fst).Nodup) (hk : lookupS m k = some w) :
    valsSum (m.map (fun p => if p.1 = k then (k, v) else p)) = valsSum m - w + v := by
  induction m with
  | nil => simp [lookupS] at hk
  | cons p t ih =>
    obtain ⟨a, b⟩ := p
    simp only [List.map_cons, List.nodup_cons] at h
    by_cases hak : a = k
    · subst hak
      simp only [lookupS, if_pos rfl] at hk
      injection hk with hbw
      subst hbw
      have ht : t.map (fun p => if p.1 = a then (a, v) else p) = t := by
        refine (List.map_congr_left ?_).trans (List.map_id t)
        intro p hp
        have hpa : p.1 ≠ a := by
          intro hpa
          exact h.1 (hpa ▸ List.mem_map_of_mem Prod.fst hp)
        simp [hpa]
      have hfa : (if ((a, b) : String × ℚ).1 = a then ((a, v) : String × ℚ) else (a, b)) = (a, v) := by
        simp
      rw [List.map_cons, hfa, ht, valsSum_cons, valsSum_cons]
      ring
    · have hka : ¬ (k = a) := fun hh => hak hh.symm
      simp only [lookupS, if_neg hka] at hk
      have hfa : (if ((a, b) : String × ℚ).1 = k then ((k, v) : String × ℚ) else (a, b)) = (a, b) := by
        simp [hak]
      rw [List.map_cons, hfa, valsSum_cons, ih h.2 hk, valsSum_cons]
      ring

/-- On a map with distinct keys, one accumulation step adds exactly its
weight to the value sum. -/
lemma valsSum_probStep (m : List (String × ℚ)) (e : String × ℚ)
    (h : (m.map Prod.fst).Nodup) : valsSum (probStep m e) = valsSum m + e.2 := by
  unfold probStep mapSet
  by_cases hp : (lookupS m e.1).isSome
  · rw [if_pos hp]
    obtain ⟨w, hw⟩ := Option.isSome_iff_exists.mp hp
    rw [valsSum_replace m e.1 _ w h hw]
    have : probGet m e.1 = w := by
      unfold probGet
      rw [hw]
      rfl
    rw [this]
    ring
  · rw [if_neg hp]
    have hnone : lookupS m e.1 = none := by
      cases hcase : lookupS m e.1 with
      | none => rfl
      | some w => rw [hcase] at hp; simp at hp
    have : probGet m e.1 = 0 := by
      unfold probGet
      rw [hnone]
      rfl
    rw [this]
    simp [valsSum]

/-- Folding weighted entries into a distinct-key map adds the total weight
to the value sum. -/
lemma valsSum_foldl (entries : List (String × ℚ)) (m : List (String × ℚ))
    (h : (m.map Prod.fst).Nodup) :
    valsSum (entries.foldl probStep m) = valsSum m + (entries.map Prod.snd).sum := by
  induction entries generalizing m with
  | nil => simp
  | cons e t ih =>
    rw [List.foldl_cons, ih _ (keysNodup_probStep m e h), valsSum_probStep m e h]
    simp
    ring

/-- C8: the value the returned probability map assigns to each key is the
sum of the fixed weights 0.375, 0.09375, 0.03125 (dominant, recessive1,
recessive2, per parent) over the six alleles carrying that key, and the
map has at most 6 entries with pairwise-distinct keys. -/
theorem C8_inheritance_weights (parent1Gene parent2Gene : PartGene) :
    (∀ key, probGet (calculateBreedingProbability parent1Gene parent2Gene) key =
      ((([(geneKey parent1Gene.d, 3 / 8), (geneKey parent1Gene.r1, 3 / 32),
          (geneKey parent1Gene.r2, 1 / 32), (geneKey parent2Gene.d, 3 / 8),
          (geneKey parent2Gene.r1, 3 / 32), (geneKey parent2Gene.r2, 1 / 32)]
         : List (String × ℚ)).filter (fun e => e.1 = key)).map Prod.snd).sum) ∧
    (calculateBreedingProbability parent1Gene parent2Gene).length ≤ 6 ∧
    ((calculateBreedingProbability parent1Gene parent2Gene).map Prod.fst).Nodup := by
  refine ⟨?_, ?_, ?_⟩
  · intro key
    unfold calculateBreedingProbability
    rw [probGet_foldl]
    simp [probGet, lookupS, alleleEntries]
  · have h := length_foldl_probStep_le (alleleEntries parent1Gene parent2Gene) []
    simpa [calculateBreedingProbability, alleleEntries] using h
  · exact keysNodup_foldl _ [] (by simp)

/-- C10: the values of the probability map always sum to exactly 1: each
parent contributes 0.375 + 0.09375 + 0.03125 = 0.5, and merging entries by
key preserves the total. -/
theorem C10_probabilities_sum_to_one (parent1Gene parent2Gene : PartGene) :
    valsSum (calculateBreedingProbability parent1Gene parent2Gene) = 1 := by
  unfold calculateBreedingProbability
  rw [valsSum_foldl _ _ (by simp)]
  simp [valsSum, alleleEntries]
  norm_num

/-- An individual Axie passes `canBreed` exactly when its breed count is
below 7 and it is an adult. -/
lemma canBreed_true_iff (axie : Axie) :
    (canBreed axie).canBreed = true ↔ (axie.breedCount < 7 ∧ 4 ≤ axie.stage) := by
  unfold canBreed MAX_BREED_COUNT
  split_ifs with h1 h2 <;> simp <;> omega

/-- C3 counterexample: an Axie paired with itself while also at the
maximum breed count fails two conditions, yet the result carries only the
self-breeding reason; the breed-count failure that `canBreed` itself would
report is absent. -/
theorem C3_counterexample :
    canBreedTogether ⟨"1", .beast, "", 0, "0", "0", 7, "o", 4⟩
        ⟨"1", .beast, "", 0, "0", "0", 7, "o", 4⟩ =
      ⟨false, some "Cannot breed Axie with itself"⟩ ∧
    (canBreed ⟨"1", .beast, "", 0, "0", "0", 7, "o", 4⟩).canBreed = false ∧
    (canBreed ⟨"1", .beast, "", 0, "0", "0", 7, "o", 4⟩).reason =
      some "Maximum breed count reached (7)" ∧
    "Cannot breed Axie with itself" ≠ "Maximum breed count reached (7)" := by
  refine ⟨rfl, rfl, rfl, by decide⟩

/-- C3 (amended): `canBreedTogether` short-circuits instead of collecting
failures: it reports only the first failing check in source order
(self-breeding, parenthood either way, siblings, then each parent's
individual eligibility), and its success flag is true exactly when none of
the five conditions fails. -/
theorem C3_amended (axie1 axie2 : Axie) :
    ((canBreedTogether axie1 axie2).canBreed = true ↔
      (axie1.id ≠ axie2.id ∧
       ¬ (axie1.id = axie2.matronId ∨ axie1.id = axie2.sireId) ∧
       ¬ (axie2.id = axie1.matronId ∨ axie2.id = axie1.sireId) ∧
       ¬ (axie1.matronId = axie2.matronId ∧ axie1.sireId = axie2.sireId ∧
          axie1.matronId ≠ "0" ∧ axie1.sireId ≠ "0") ∧
       axie1.breedCount < 7 ∧ 4 ≤ axie1.stage ∧
       axie2.breedCount < 7 ∧ 4 ≤ axie2.stage)) ∧
    (axie1.id = axie2.id →
      canBreedTogether axie1 axie2 = ⟨false, some "Cannot breed Axie with itself"⟩) := by
  constructor
  · unfold canBreedTogether
    dsimp only
    split_ifs with h1 h2 h3 h4 h5 h6
    · exact iff_of_false not_false (fun hc => hc.1 h1)
    · exact iff_of_false not_false (fun hc => hc.2.1 h2)
    · exact iff_of_false not_false (fun hc => hc.2.2.1 h3)
    · exact iff_of_false not_false (fun hc => hc.2.2.2.1 h4)
    · refine iff_of_false not_false (fun hc => ?_)
      have hgood := (canBreed_true_iff axie1).mpr ⟨hc.2.2.2.2.1, hc.2.2.2.2.2.1⟩
      rw [h5] at hgood
      exact Bool.false_ne_true hgood
    · refine iff_of_false not_false (fun hc => ?_)
      have hgood := (canBreed_true_iff axie2).mpr ⟨hc.2.2.2.2.2.2.1, hc.2.2.2.2.2.2.2⟩
      rw [h6] at hgood
      exact Bool.false_ne_true hgood
    · refine iff_of_true rfl ?_
      have hb1 : (canBreed axie1).canBreed = true := by
        cases hcb : (canBreed axie1).canBreed with
        | false => exact absurd hcb h5
        | true => rfl
      have hb2 : (canBreed axie2).canBreed = true := by
        cases hcb : (canBreed axie2).canBreed with
        | false => exact absurd hcb h6
        | true => rfl
      have hc1 := (canBreed_true_iff axie1).mp hb1
      have hc2 := (canBreed_true_iff axie2).mp hb2
      exact ⟨h1, h2, h3, h4, hc1.1, hc1.2, hc2.1, hc2.2⟩
  · intro h
    unfold canBreedTogether
    rw [if_pos h]

/-- Witness for C3 (amended): the self-breeding clause instantiated at a
concrete Axie. -/
theorem C3_amended_witness :
    canBreedTogether ⟨"7", .beast, "", 0, "0", "0", 0, "o", 4⟩
        ⟨"7", .beast, "", 0, "0", "0", 0, "o", 4⟩ =
      ⟨false, some "Cannot breed Axie with itself"⟩ :=
  (C3_amended _ _).2 rfl

/-- A defaulted association lookup stays inside a value domain containing
all stored values and the default. -/
lemma lookupS_getD_mem {α : Type} (l : List (String × α)) (key : String) (d : α)
    (vs : List α) (hl : ∀ p ∈ l, p.2 ∈ vs) (hd : d ∈ vs) :
    (lookupS l key).getD d ∈ vs := by
  induction l with
  | nil => simpa [lookupS] using hd
  | cons p t ih =>
    obtain ⟨a, b⟩ := p
    by_cases h : key = a
    · simpa [lookupS, h] using hl (a, b) (List.mem_cons_self _ _)
    · simpa [lookupS, h] using ih (fun q hq => hl q (List.mem_cons_of_mem _ hq))

/-- Every decoded allele class is one of the nine class names or the
`unknown` fallback, whatever the input bits. -/
lemma decodePart_class_mem (bits : List Char) :
    (decodePart bits).«class» ∈ alleleClassStrings := by
  show (lookupS CLASS_HEX (String.mk (sliceStr bits 0 4))).getD "unknown" ∈ alleleClassStrings
  apply lookupS_getD_mem
  · intro p hp
    fin_cases hp <;> simp [alleleClassStrings]
  · simp [alleleClassStrings]

/-- C1 counterexample: the empty string does not match the gene pattern,
yet `decodeGenes` does not fail on it: it returns a fully decoded
structure (all-zero fields, the `beast` class fallback, and the clipped
tail window).  No `InvalidGeneFormat` error exists in the decoder. -/
theorem C1_counterexample :
    matchesGenePattern "" = false ∧
    isValidGene "" = false ∧
    decodeGenes "" =
      { «class» := .beast, region := "0", tag := "0", bodySkin := "0"
      , pattern := ⟨"0", "0", "0"⟩, color := ⟨"0", "0", "0"⟩
      , eyes := ⟨⟨"0", "part-0", "beast"⟩, ⟨"0", "part-0", "beast"⟩, ⟨"0", "part-0", "beast"⟩⟩
      , ears := ⟨⟨"0", "part-0", "beast"⟩, ⟨"0", "part-0", "beast"⟩, ⟨"0", "part-0", "beast"⟩⟩
      , mouth := ⟨⟨"0", "part-0", "beast"⟩, ⟨"0", "part-0", "beast"⟩, ⟨"0", "part-0", "beast"⟩⟩
      , horn := ⟨⟨"0", "part-0", "beast"⟩, ⟨"0", "part-0", "beast"⟩, ⟨"0", "part-0", "beast"⟩⟩
      , back := ⟨⟨"0", "part-0", "beast"⟩, ⟨"0", "part-0", "beast"⟩, ⟨"0", "part-0", "beast"⟩⟩
      , tail := ⟨⟨"0", "part-0", "beast"⟩, ⟨"NaN", "part-NaN", "unknown"⟩,
                 ⟨"NaN", "part-NaN", "unknown"⟩⟩ } := by
  refine ⟨rfl, rfl, ?_⟩
  rfl

/-- C1 (amended): `decodeGenes` performs no input validation and cannot
fail: it is total, and even on inputs rejected by the pattern it returns a
structure whose allele classes are drawn from the decode domain; such
inputs are flagged only by `isValidGene` returning `false`. -/
theorem C1_amended (s : String) (h : matchesGenePattern s = false) :
    isValidGene s = false ∧
    ∀ part : BodyPart, (getPart (decodeGenes s) part).d.«class» ∈ alleleClassStrings := by
  constructor
  · rw [isValidGene, isValidL_eq_matchesL]
    exact h
  · intro part
    cases part <;> exact decodePart_class_mem _

/-- Witness for C1 (amended): the literal input `invalid` fails the
pattern and is rejected by `isValidGene` while still being decodable. -/
theorem C1_amended_witness :
    matchesGenePattern "invalid" = false ∧ isValidGene "invalid" = false :=
  ⟨rfl, (C1_amended "invalid" rfl).1⟩

/-- Every hex character expands to exactly 4 characters (including the
`NaN` rendering of non-hex characters). -/
lemma hexChunk_length (c : Char) : (hexChunk c).length = 4 := by
  unfold hexChunk
  cases hexVal c <;> rfl

/-- The concatenated nibble expansions of a character list are 4 times as
long. -/
lemma flatten_map_hexChunk_length (l : List Char) :
    ((l.map hexChunk).flatten).length = 4 * l.length := by
  induction l with
  | nil => rfl
  | cons c t ih =>
    simp [hexChunk_length, ih]
    ring

/-- When the input (after stripping an optional prefix) has 64 characters,
the binary expansion has exactly 256 and no padding occurs. -/
lemma hexToBinaryL_length (l : List Char)
    (h : (if l.take 2 = ['0', 'x'] then l.drop 2 else l).length = 64) :
    (hexToBinaryL l).length = 256 := by
  unfold hexToBinaryL
  simp only [flatten_map_hexChunk_length, h]
  rw [if_neg (by norm_num)]
  rw [flatten_map_hexChunk_length, h]

/-- A pattern-matching input leaves 64 characters after stripping the
optional prefix. -/
lemma matches_clean_length (l : List Char) (h : matchesGenePatternL l = true) :
    (if l.take 2 = ['0', 'x'] then l.drop 2 else l).length = 64 := by
  unfold matchesGenePatternL at h
  simp only [Bool.or_eq_true, Bool.and_eq_true, decide_eq_true_eq] at h
  rcases h with ⟨h64, hhex⟩ | ⟨⟨hpre, h66⟩, _⟩
  · rw [if_neg ?_]
    · exact h64
    · intro hp
      have hx : 'x' ∈ l := by
        have : 'x' ∈ l.take 2 := by
          rw [hp]
          simp
        exact List.take_subset 2 l this
      have := List.all_eq_true.mp hhex 'x' hx
      simp [isHexChar] at this
  · rw [if_pos hpre]
    simp [List.length_drop, h66]

/-- The binary expansion of any pattern-matching gene string has exactly
256 characters. -/
lemma hexToBinary_length (s : String) (h : matchesGenePattern s = true) :
    (hexToBinary s).length = 256 :=
  hexToBinaryL_length s.toList (matches_clean_length s.toList h)

/-- On a 256-character binary string, the sixth part window starting at
offset 244 is clipped to 12 characters: only the dominant allele comes from
real bits, the two recessive alleles decode from empty slices. -/
lemma decodePartGene_clipped (b : List Char) (hb : b.length = 256) :
    decodePartGene (sliceStr b 244 280) =
      { d := decodePart (sliceStr b 244 256)
      , r1 := ⟨"NaN", "part-NaN", "unknown"⟩
      , r2 := ⟨"NaN", "part-NaN", "unknown"⟩ } := by
  have hlen : (sliceStr b 244 280).length = 12 := by
    unfold sliceStr
    rw [List.length_take, List.length_drop, hb]
    norm_num
  unfold decodePartGene
  rw [PartGene.mk.injEq]
  refine ⟨?_, ?_, ?_⟩
  · congr 1
    unfold sliceStr
    rw [List.drop_zero, List.take_take]
    norm_num
  · have hnil : sliceStr (sliceStr b 244 280) 12 24 = [] := by
      unfold sliceStr
      have hle : (List.take (280 - 244) (List.drop 244 b)).length ≤ 12 := by
        rw [List.length_take, List.length_drop, hb]
        norm_num
      rw [List.drop_eq_nil_of_le hle]
      simp
    rw [hnil]
    rfl
  · have hnil : sliceStr (sliceStr b 244 280) 24 36 = [] := by
      unfold sliceStr
      have hle : (List.take (280 - 244) (List.drop 244 b)).length ≤ 24 := by
        rw [List.length_take, List.length_drop, hb]
        norm_num
      rw [List.drop_eq_nil_of_le hle]
      simp
    rw [hnil]
    rfl

set_option maxRecDepth 8192 in
/-- C4 counterexample: on the all-zero 64-hex-character input, the tail
part's 36-bit window `[244, 280)` runs past the 256-bit expansion and is
clipped to 12 characters, so the tail's recessive alleles are not decoded
from 12-bit fields: they come out as class `unknown` and id `NaN`, while a
genuine all-zero 12-bit allele (such as `back.r1`) decodes to class `beast`
and id `0`. -/
theorem C4_counterexample :
    matchesGenePattern (String.mk (List.replicate 64 '0')) = true ∧
    (sliceStr (hexToBinary (String.mk (List.replicate 64 '0'))) 244 280).length = 12 ∧
    (decodeGenes (String.mk (List.replicate 64 '0'))).tail.r1 =
      ⟨"NaN", "part-NaN", "unknown"⟩ ∧
    (decodeGenes (String.mk (List.replicate 64 '0'))).back.r1 =
      ⟨"0", "part-0", "beast"⟩ := by
  refine ⟨by decide, by decide, by decide, by decide⟩

/-- C4 (amended): for every pattern-matching input the decoder extracts
fields at the stated fixed offsets of the 256-character MSB-first
expansion (class bits [0,4) with `beast` fallback, region [4,9), tag
[9,13), bodySkin [13,17), pattern [17,35) and color [35,53) as three 6-bit
values each, parts from offset 64 in the order eyes, mouth, ears, horn,
back at 36 bits each), except that the tail window `[244, 280)` is clipped
by the 256-bit length: only tail's dominant allele is decoded from the
remaining 12 bits `[244, 256)`, and `tail.r1`, `tail.r2` decode from empty
slices as class `unknown`, id `NaN`. -/
theorem C4_amended (s : String) (h : matchesGenePattern s = true) :
    (hexToBinary s).length = 256 ∧
    decodeGenes s =
      { «class» := getClassFromGene (hexToBinary s)
      , region := parseBin (sliceStr (hexToBinary s) 4 9)
      , tag := parseBin (sliceStr (hexToBinary s) 9 13)
      , bodySkin := parseBin (sliceStr (hexToBinary s) 13 17)
      , pattern := ⟨parseBin (sliceStr (hexToBinary s) 17 23),
                    parseBin (sliceStr (hexToBinary s) 23 29),
                    parseBin (sliceStr (hexToBinary s) 29 35)⟩
      , color := ⟨parseBin (sliceStr (hexToBinary s) 35 41),
                  parseBin (sliceStr (hexToBinary s) 41 47),
                  parseBin (sliceStr (hexToBinary s) 47 53)⟩
      , eyes := decodePartGene (sliceStr (hexToBinary s) 64 100)
      , mouth := decodePartGene (sliceStr (hexToBinary s) 100 136)
      , ears := decodePartGene (sliceStr (hexToBinary s) 136 172)
      , horn := decodePartGene (sliceStr (hexToBinary s) 172 208)
      , back := decodePartGene (sliceStr (hexToBinary s) 208 244)
      , tail := { d := decodePart (sliceStr (hexToBinary s) 244 256)
                , r1 := ⟨"NaN", "part-NaN", "unknown"⟩
                , r2 := ⟨"NaN", "part-NaN", "unknown"⟩ } } := by
  have hlen := hexToBinary_length s h
  refine ⟨hlen, ?_⟩
  unfold decodeGenes decodeGenesL
  rw [DecodedGenes.mk.injEq]
  exact ⟨rfl, rfl, rfl, rfl, rfl, rfl, rfl, rfl, rfl, rfl, rfl,
    decodePartGene_clipped (hexToBinary s) hlen⟩

set_option maxRecDepth 8192 in
/-- Witness for C4 (amended): the clipped-tail characterization evaluated
at the all-one 64-hex-character input. -/
theorem C4_amended_witness :
    (hexToBinary (String.mk (List.replicate 64 '1'))).length = 256 ∧
    (decodeGenes (String.mk (List.replicate 64 '1'))).tail.r1 =
      ⟨"NaN", "part-NaN", "unknown"⟩ := by
  refine ⟨(C4_amended (String.mk (List.replicate 64 '1')) (by decide)).1, ?_⟩
  rw [(C4_amended (String.mk (List.replicate 64 '1')) (by decide)).2]

end Ronin
